import Mathlib

/-!
Verification of the interactive annotation-geometry engine of
`frontend/src/components/annotation/AnnotationCanvas.tsx`.

The component's React state is modelled as an explicit record
(`CanvasState`), JavaScript numbers as rationals, and each event handler
(`handleMouseDown`, `handleMouseMove`, `handleMouseUp`, the keyboard
handler, the toolbar buttons and the label-editor callbacks) as a pure
function from state to state.  Handlers that call the host callback
`onAnnotationsChange` additionally return the list of lists it was
invoked with, in order, so that notification behaviour is provable.

Naming note: the source type `Annotation` is rendered here as `Annot`
(and `selectedAnnotation` / `originalAnnotation` as `selectedAnnot` /
`originalAnnot`); all other names follow the source.  The constant
discriminator field `type: 'bbox'` carries no information and is
omitted from the record.
-/

/-- Tool selection of the toolbar: the source's `"select" | "bbox"`. -/
inductive Tool where
  | select
  | bbox
deriving DecidableEq, Repr

/-- Edit mode during a drag on the selected box: `'move' | 'resize'`. -/
inductive EditMode where
  | move
  | resize
deriving DecidableEq, Repr

/-- Resize-handle identifiers, `'nw' | 'ne' | 'sw' | 'se' | 'n' | 's' | 'w' | 'e'`. -/
inductive Handle where
  | nw
  | ne
  | sw
  | se
  | n
  | s
  | w
  | e
deriving DecidableEq, Repr

/-- A point; device (canvas) or image coordinates depending on context. -/
structure Point where
  x : ℚ
  y : ℚ
deriving DecidableEq, Repr

/-- A rectangle in image coordinates, the shape of `currentRect`. -/
structure Rect where
  x : ℚ
  y : ℚ
  width : ℚ
  height : ℚ
deriving DecidableEq, Repr

/-- One annotation record (source interface `Annotation`): id from
`Date.now()`, geometry in image-space units, and a text label. -/
structure Annot where
  id : Int
  x : ℚ
  y : ℚ
  width : ℚ
  height : ℚ
  label : String
deriving DecidableEq, Repr

/-- The React state of the component, after the image has loaded:
`image.width`/`image.height` are stored as `imageWidth`/`imageHeight`. -/
structure CanvasState where
  selectedTool : Tool
  annotations : List Annot
  isDrawing : Bool
  startPoint : Option Point
  currentRect : Option Rect
  selectedAnnot : Option Nat
  scale : ℚ
  imageOffset : Point
  imageWidth : ℚ
  imageHeight : ℚ
  isEditing : Bool
  editMode : Option EditMode
  resizeHandle : Option Handle
  dragStart : Option Point
  originalAnnot : Option Annot
  editingLabel : Option Nat
  tempLabel : String
deriving DecidableEq, Repr

/-- Source `getImageMousePos`: device point to image point,
`clamp((device - offset) / scale, 0, imageDim)` in each axis
(`Math.max(0, Math.min(image.width, x))`). -/
def getImageMousePos (st : CanvasState) (canvasPos : Point) : Point :=
  let x := (canvasPos.x - st.imageOffset.x) / st.scale
  let y := (canvasPos.y - st.imageOffset.y) / st.scale
  ⟨max 0 (min st.imageWidth x), max 0 (min st.imageHeight y)⟩

/-- The image-to-device transform used by `drawCanvas` (and by the hit
and handle tests): `offset + imageCoord * scale`. -/
def imageToDevice (st : CanvasState) (p : Point) : Point :=
  ⟨st.imageOffset.x + p.x * st.scale, st.imageOffset.y + p.y * st.scale⟩

/-- Device-space bounding-box containment test from the hit-test loop in
`handleMouseDown`: the box is `offset + geometry * scale`, and the test
is `pos.x >= x && pos.x <= x + width && pos.y >= y && pos.y <= y + height`. -/
def containsPoint (st : CanvasState) (a : Annot) (pos : Point) : Prop :=
  let x := st.imageOffset.x + a.x * st.scale
  let y := st.imageOffset.y + a.y * st.scale
  let width := a.width * st.scale
  let height := a.height * st.scale
  x ≤ pos.x ∧ pos.x ≤ x + width ∧ y ≤ pos.y ∧ pos.y ≤ y + height

instance (st : CanvasState) (a : Annot) (pos : Point) :
    Decidable (containsPoint st a pos) :=
  inferInstanceAs (Decidable (_ ≤ _ ∧ _ ≤ _ ∧ _ ≤ _ ∧ _ ≤ _))

/-- The countdown loop `for (let i = annotations.length - 1; i >= 0; i--)`
of `handleMouseDown`: `findHitAux st pos l n` scans indices
`n-1, n-2, ..., 0` and returns the first whose box contains `pos`. -/
def findHitAux (st : CanvasState) (pos : Point) (l : List Annot) : Nat → Option Nat
  | 0 => none
  | Nat.succ i =>
    match l[i]? with
    | some a => if containsPoint st a pos then some i else findHitAux st pos l i
    | none => findHitAux st pos l i

/-- Index of the topmost (hit-test) annotation under a device point, the
value of `clickedAnnotationIndex` (with `none` for `-1`). -/
def findHitIndex (st : CanvasState) (pos : Point) : Option Nat :=
  findHitAux st pos st.annotations st.annotations.length

/-- Square-hotspot containment from `getResizeHandle`:
`mouseX >= handle.x && mouseX <= handle.x + handleSize && mouseY >= handle.y && mouseY <= handle.y + handleSize`
where `(hx, hy)` is the hotspot's top-left corner. -/
def inHandleBox (mouseX mouseY hx hy handleSize : ℚ) : Prop :=
  hx ≤ mouseX ∧ mouseX ≤ hx + handleSize ∧ hy ≤ mouseY ∧ mouseY ≤ hy + handleSize

instance (mouseX mouseY hx hy handleSize : ℚ) :
    Decidable (inHandleBox mouseX mouseY hx hy handleSize) :=
  inferInstanceAs (Decidable (_ ≤ _ ∧ _ ≤ _ ∧ _ ≤ _ ∧ _ ≤ _))

/-- Source `getResizeHandle`: returns `null` unless `index` is the
selected annotation; otherwise tests the 8 hotspots (top-left corner =
anchor point minus `handleSize/2`, side `handleSize = 12`) in the
source's array order `nw, ne, sw, se, n, s, w, e` and returns the first
hit. The first-hit `for` loop is rendered as an if-chain in that order. -/
def getResizeHandle (st : CanvasState) (mouseX mouseY : ℚ) (a : Annot)
    (index : Nat) : Option Handle :=
  if st.selectedAnnot ≠ some index then none
  else
    let x := st.imageOffset.x + a.x * st.scale
    let y := st.imageOffset.y + a.y * st.scale
    let width := a.width * st.scale
    let height := a.height * st.scale
    let handleSize : ℚ := 12
    if inHandleBox mouseX mouseY (x - handleSize/2) (y - handleSize/2) handleSize then some .nw
    else if inHandleBox mouseX mouseY (x + width - handleSize/2) (y - handleSize/2) handleSize then some .ne
    else if inHandleBox mouseX mouseY (x - handleSize/2) (y + height - handleSize/2) handleSize then some .sw
    else if inHandleBox mouseX mouseY (x + width - handleSize/2) (y + height - handleSize/2) handleSize then some .se
    else if inHandleBox mouseX mouseY (x + width/2 - handleSize/2) (y - handleSize/2) handleSize then some .n
    else if inHandleBox mouseX mouseY (x + width/2 - handleSize/2) (y + height - handleSize/2) handleSize then some .s
    else if inHandleBox mouseX mouseY (x - handleSize/2) (y + height/2 - handleSize/2) handleSize then some .w
    else if inHandleBox mouseX mouseY (x + width - handleSize/2) (y + height/2 - handleSize/2) handleSize then some .e
    else none

/-- The `switch (resizeHandle)` of `handleMouseMove`: new
`(x, y, width, height)` from the drag-start snapshot `o` and the
image-space deltas `(dx, dy)`. -/
def resizeGeom (h : Handle) (o : Annot) (dx dy : ℚ) : Rect :=
  match h with
  | .nw => ⟨o.x + dx, o.y + dy, o.width - dx, o.height - dy⟩
  | .ne => ⟨o.x, o.y + dy, o.width + dx, o.height - dy⟩
  | .sw => ⟨o.x + dx, o.y, o.width - dx, o.height + dy⟩
  | .se => ⟨o.x, o.y, o.width + dx, o.height + dy⟩
  | .n => ⟨o.x, o.y + dy, o.width, o.height - dy⟩
  | .s => ⟨o.x, o.y, o.width, o.height + dy⟩
  | .w => ⟨o.x + dx, o.y, o.width - dx, o.height⟩
  | .e => ⟨o.x, o.y, o.width + dx, o.height⟩

/-- Source `handleMouseDown` (`canvasPos` is the device point; the
computed `imagePos` is only logged by the source and is not used). -/
def handleMouseDown (st : CanvasState) (canvasPos : Point) : CanvasState :=
  if st.selectedTool = Tool.select then
    match findHitIndex st canvasPos with
    | some i =>
      if st.selectedAnnot = some i then
        match st.annotations[i]? with
        | some a =>
          match getResizeHandle st canvasPos.x canvasPos.y a i with
          | some h =>
            { st with isEditing := true, editMode := some .resize,
                      resizeHandle := some h, dragStart := some canvasPos,
                      originalAnnot := some a }
          | none =>
            { st with isEditing := true, editMode := some .move,
                      dragStart := some canvasPos, originalAnnot := some a }
        | none => st
      else
        { st with selectedAnnot := some i }
    | none => { st with selectedAnnot := none }
  else
    { st with isDrawing := true, startPoint := some canvasPos,
              currentRect := some ⟨canvasPos.x, canvasPos.y, 0, 0⟩,
              selectedAnnot := none }

/-- Source `handleMouseMove`.  The second component lists the argument
of each `onAnnotationsChange` call made by this handler. -/
def handleMouseMove (st : CanvasState) (canvasPos : Point) :
    CanvasState × List (List Annot) :=
  match st.isEditing, st.selectedAnnot, st.dragStart, st.originalAnnot with
  | true, some sel, some ds, some orig =>
    let deltaX := (canvasPos.x - ds.x) / st.scale
    let deltaY := (canvasPos.y - ds.y) / st.scale
    let ann :=
      if st.editMode = some EditMode.move then
        { orig with x := orig.x + deltaX, y := orig.y + deltaY }
      else if st.editMode = some EditMode.resize ∧ st.resizeHandle.isSome then
        match st.resizeHandle with
        | some h =>
          let g := resizeGeom h orig deltaX deltaY
          if g.width > 10 ∧ g.height > 10 then
            { orig with x := g.x, y := g.y, width := g.width, height := g.height }
          else orig
        | none => orig
      else orig
    let newAnnotations := st.annotations.set sel ann
    ({ st with annotations := newAnnotations }, [newAnnotations])
  | _, _, _, _ =>
    match st.isDrawing, st.startPoint, st.selectedTool with
    | true, some startPoint, Tool.bbox =>
      let imagePos := getImageMousePos st canvasPos
      let sx := (startPoint.x - st.imageOffset.x) / st.scale
      let sy := (startPoint.y - st.imageOffset.y) / st.scale
      let width := |imagePos.x - sx|
      let height := |imagePos.y - sy|
      let x := min imagePos.x sx
      let y := min imagePos.y sy
      ({ st with currentRect := some ⟨x, y, width, height⟩ }, [])
    | _, _, _ => (st, [])

/-- Source `handleMouseUp`; `now` is the value `Date.now()` returns at
the commit.  Second component as in `handleMouseMove`. -/
def handleMouseUp (st : CanvasState) (now : Int) :
    CanvasState × List (List Annot) :=
  if st.isEditing then
    ({ st with isEditing := false, editMode := none, resizeHandle := none,
               dragStart := none, originalAnnot := none }, [])
  else
    match st.isDrawing, st.currentRect, st.selectedTool with
    | true, some currentRect, Tool.bbox =>
      if currentRect.width > 10 ∧ currentRect.height > 10 then
        let newAnnot : Annot :=
          { id := now, x := currentRect.x, y := currentRect.y,
            width := currentRect.width, height := currentRect.height,
            label := "Object " ++ toString (st.annotations.length + 1) }
        let newAnnotations := st.annotations ++ [newAnnot]
        ({ st with isDrawing := false, annotations := newAnnotations,
                   currentRect := none, startPoint := none },
         [newAnnotations])
      else
        ({ st with isDrawing := false, currentRect := none,
                   startPoint := none }, [])
    | _, _, _ => (st, [])

/-- The index filter `annotations.filter((_, index) => index !== k)` of
`deleteSelected`, written over `List.enum` (element indices first). -/
def removeAt (l : List Annot) (k : Nat) : List Annot :=
  (l.enum.filter (fun p => p.1 ≠ k)).map (fun p => p.2)

/-- Source `deleteSelected`: remove the selected index, clear the
selection, notify; no-op when nothing is selected. -/
def deleteSelected (st : CanvasState) : CanvasState × List (List Annot) :=
  match st.selectedAnnot with
  | none => (st, [])
  | some sel =>
    let newAnnotations := removeAt st.annotations sel
    ({ st with annotations := newAnnotations, selectedAnnot := none },
     [newAnnotations])

/-- Source `clearAll`: empty the scene, notify with `[]`, deselect. -/
def clearAll (st : CanvasState) : CanvasState × List (List Annot) :=
  ({ st with annotations := [], selectedAnnot := none }, [[]])

/-- The in-place write `newAnnotations[index].label = newLabel` of
`updateAnnotationLabel`; out-of-range indices (unreachable from the UI)
are a no-op. -/
def setLabel (l : List Annot) (index : Nat) (newLabel : String) : List Annot :=
  match l[index]? with
  | some a => l.set index { a with label := newLabel }
  | none => l

/-- Source `updateAnnotationLabel`: write the label, notify. -/
def updateAnnotLabel (st : CanvasState) (index : Nat) (newLabel : String) :
    CanvasState × List (List Annot) :=
  let newAnnotations := setLabel st.annotations index newLabel
  ({ st with annotations := newAnnotations }, [newAnnotations])

/-- Source `startLabelEdit`: activate the editor on row `index` with the
buffer seeded from that annotation's label. -/
def startLabelEdit (st : CanvasState) (index : Nat) : CanvasState :=
  { st with editingLabel := some index,
            tempLabel := ((st.annotations[index]?).map (fun a => a.label)).getD "" }

/-- JavaScript `String.prototype.trim` modelled structurally over the
character list: leading and trailing whitespace removed.  (Core
`String.trim` is extensionally the same but is defined by well-founded
byte-position recursion, which blocks kernel evaluation.) -/
def jsTrim (s : String) : String :=
  ⟨((s.data.dropWhile Char.isWhitespace).reverse.dropWhile
      Char.isWhitespace).reverse⟩

/-- Source `saveLabelEdit`: `if (tempLabel.trim()) updateAnnotationLabel(index, tempLabel.trim())`,
then always deactivate the editor (a JS string is truthy iff non-empty). -/
def saveLabelEdit (st : CanvasState) (index : Nat) :
    CanvasState × List (List Annot) :=
  if jsTrim st.tempLabel ≠ "" then
    let r := updateAnnotLabel st index (jsTrim st.tempLabel)
    ({ r.1 with editingLabel := none, tempLabel := "" }, r.2)
  else
    ({ st with editingLabel := none, tempLabel := "" }, [])

/-- Source `cancelLabelEdit`. -/
def cancelLabelEdit (st : CanvasState) : CanvasState :=
  { st with editingLabel := none, tempLabel := "" }

/-- The events the component reacts to.  `mouseUp` carries the value
`Date.now()` yields at that instant.  Keyboard events model the
document-level `keydown` listener, which the source only runs when no
input or textarea has focus; `labelConfirm`/`labelCancel`/`labelInput`
are the label-editor input's own blur/Enter/Escape/onChange callbacks. -/
inductive Event where
  | mouseDown (pos : Point)
  | mouseMove (pos : Point)
  | mouseUp (now : Int)
  | keyDelete
  | keyEscape
  | keySpace
  | deleteClick
  | clearClick
  | toolClick (t : Tool)
  | rowClick (i : Nat)
  | labelDoubleClick (i : Nat)
  | labelInput (text : String)
  | labelConfirm
  | labelCancel
deriving DecidableEq, Repr

/-- One fully processed event: the next state plus the arguments of the
`onAnnotationsChange` calls made while handling it.  `keyDelete` is the
`Delete`/`Backspace` case (guarded by `selectedAnnotation !== null`),
`keyEscape` the `Escape` case, `keySpace` the tool toggle; `deleteClick`
and `clearClick` are the toolbar buttons, `rowClick` the list row's
onClick, `labelDoubleClick` the label's onDoubleClick.  `labelConfirm`
fires as `saveLabelEdit(index)` where the rendered input's row index
equals `editingLabel`. -/
def step (st : CanvasState) : Event → CanvasState × List (List Annot)
  | .mouseDown pos => (handleMouseDown st pos, [])
  | .mouseMove pos => handleMouseMove st pos
  | .mouseUp now => handleMouseUp st now
  | .keyDelete =>
    if st.selectedAnnot ≠ none then deleteSelected st else (st, [])
  | .keyEscape =>
    ({ st with selectedAnnot := none, isEditing := false, editMode := none,
               resizeHandle := none, dragStart := none,
               originalAnnot := none }, [])
  | .keySpace =>
    ({ st with selectedTool :=
         if st.selectedTool = Tool.select then Tool.bbox else Tool.select }, [])
  | .deleteClick => deleteSelected st
  | .clearClick => clearAll st
  | .toolClick t => ({ st with selectedTool := t }, [])
  | .rowClick i => ({ st with selectedAnnot := some i }, [])
  | .labelDoubleClick i => (startLabelEdit st i, [])
  | .labelInput text => ({ st with tempLabel := text }, [])
  | .labelConfirm =>
    match st.editingLabel with
    | some index => saveLabelEdit st index
    | none => (st, [])
  | .labelCancel => (cancelLabelEdit st, [])

/-- Fold a list of events through `step`, discarding notifications. -/
def runSteps (st : CanvasState) : List Event → CanvasState
  | [] => st
  | e :: es => runSteps (step st e).1 es

/-- Dropping the element whose index equals `n + k` from `enumFrom n l`
is positional removal at `k`. -/
theorem removeAt_enumFrom (l : List Annot) : ∀ (n k : Nat),
    ((List.enumFrom n l).filter (fun p => p.1 ≠ n + k)).map (fun p => p.2) =
      l.eraseIdx k := by
  induction l with
  | nil => intro n k; simp
  | cons a t ih =>
    intro n k
    rw [List.enumFrom_cons]
    cases k with
    | zero =>
      rw [List.filter_cons]
      have hc0 : ¬ ((decide ((n, a).1 ≠ n + 0)) = true) := by
        simp only [decide_eq_true_eq]; omega
      rw [if_neg hc0]
      have hall : (List.enumFrom (n + 1) t).filter (fun p => p.1 ≠ n + 0) =
          List.enumFrom (n + 1) t := by
        rw [List.filter_eq_self]
        intro p hp
        have := List.le_fst_of_mem_enumFrom hp
        simp only [ne_eq, decide_eq_true_eq]
        omega
      rw [hall, List.eraseIdx]
      exact List.enumFrom_map_snd (n + 1) t
    | succ k =>
      rw [List.filter_cons]
      have hcond : (decide ((n, a).1 ≠ n + (k + 1))) = true := by
        simp only [decide_eq_true_eq]; omega
      rw [if_pos hcond]
      simp only [List.map_cons, List.eraseIdx]
      have hshift : n + (k + 1) = (n + 1) + k := by omega
      rw [hshift, ih (n + 1) k]

/-- The source's index filter is positional removal. -/
theorem removeAt_eq_eraseIdx (l : List Annot) (k : Nat) :
    removeAt l k = l.eraseIdx k := by
  have h := removeAt_enumFrom l 0 k
  simpa [removeAt, List.enum] using h

/-- Overwriting an index with the element already stored there is the
identity. -/
theorem set_self_of_getElem? {α : Type} (l : List α) :
    ∀ (n : Nat) (a : α), l[n]? = some a → l.set n a = l := by
  induction l with
  | nil => intro n a h; simp at h
  | cons x t ih =>
    intro n a h
    cases n with
    | zero => simp_all
    | succ m =>
      simp only [List.getElem?_cons_succ] at h
      simp only [List.set_cons_succ, List.cons.injEq, true_and]
      exact ih m a h

/-- A successful scan of indices below `n` returns an index whose box
contains the point and above which (still below `n`) no box does. -/
theorem findHitAux_eq_some (st : CanvasState) (pos : Point) (l : List Annot) :
    ∀ (n k : Nat), findHitAux st pos l n = some k →
      k < n ∧ (∃ a, l[k]? = some a ∧ containsPoint st a pos) ∧
        ∀ j, k < j → j < n → ∀ b, l[j]? = some b → ¬ containsPoint st b pos := by
  intro n
  induction n with
  | zero => intro k h; simp [findHitAux] at h
  | succ i ih =>
    intro k h
    unfold findHitAux at h
    cases hg : l[i]? with
    | some a =>
      rw [hg] at h
      dsimp only at h
      by_cases hc : containsPoint st a pos
      · rw [if_pos hc] at h
        cases h
        refine ⟨Nat.lt_succ_self i, ⟨a, hg, hc⟩, ?_⟩
        intro j hj1 hj2 b hb hcb
        omega
      · rw [if_neg hc] at h
        obtain ⟨hk, he, hall⟩ := ih k h
        refine ⟨Nat.lt_succ_of_lt hk, he, ?_⟩
        intro j hj1 hj2 b hb hcb
        rcases Nat.lt_or_ge j i with hji | hji
        · exact hall j hj1 hji b hb hcb
        · have hji' : j = i := by omega
          subst hji'
          rw [hg] at hb
          cases hb
          exact hc hcb
    | none =>
      rw [hg] at h
      dsimp only at h
      obtain ⟨hk, he, hall⟩ := ih k h
      refine ⟨Nat.lt_succ_of_lt hk, he, ?_⟩
      intro j hj1 hj2 b hb hcb
      rcases Nat.lt_or_ge j i with hji | hji
      · exact hall j hj1 hji b hb hcb
      · have hji' : j = i := by omega
        subst hji'
        rw [hg] at hb
        cases hb
    
/-- A failed scan of indices below `n` means no box below `n` contains
the point. -/
theorem findHitAux_eq_none (st : CanvasState) (pos : Point) (l : List Annot) :
    ∀ (n : Nat), findHitAux st pos l n = none →
      ∀ j, j < n → ∀ b, l[j]? = some b → ¬ containsPoint st b pos := by
  intro n
  induction n with
  | zero => intro _ j hj; omega
  | succ i ih =>
    intro h j hj b hb hcb
    unfold findHitAux at h
    cases hg : l[i]? with
    | some a =>
      rw [hg] at h
      dsimp only at h
      by_cases hc : containsPoint st a pos
      · rw [if_pos hc] at h; cases h
      · rw [if_neg hc] at h
        rcases Nat.lt_or_ge j i with hji | hji
        · exact ih h j hji b hb hcb
        · have hji' : j = i := by omega
          subst hji'
          rw [hg] at hb
          cases hb
          exact hc hcb
    | none =>
      rw [hg] at h
      dsimp only at h
      rcases Nat.lt_or_ge j i with hji | hji
      · exact ih h j hji b hb hcb
      · have hji' : j = i := by omega
        subst hji'
        rw [hg] at hb
        cases hb

/-- If some box below `n` contains the point, the scan succeeds and the
returned index is at least that box's index. -/
theorem findHitAux_covers (st : CanvasState) (pos : Point) (l : List Annot) :
    ∀ (n j : Nat) (b : Annot), j < n → l[j]? = some b →
      containsPoint st b pos →
      ∃ k, j ≤ k ∧ findHitAux st pos l n = some k := by
  intro n
  induction n with
  | zero => intro j b hj; omega
  | succ i ih =>
    intro j b hj hb hcb
    unfold findHitAux
    cases hg : l[i]? with
    | some a =>
      dsimp only
      by_cases hc : containsPoint st a pos
      · rw [if_pos hc]
        exact ⟨i, by omega, rfl⟩
      · rw [if_neg hc]
        rcases Nat.lt_or_ge j i with hji | hji
        · exact ih j b hji hb hcb
        · have hji' : j = i := by omega
          subst hji'
          rw [hg] at hb
          cases hb
          exact absurd hcb hc
    | none =>
      dsimp only
      rcases Nat.lt_or_ge j i with hji | hji
      · exact ih j b hji hb hcb
      · have hji' : j = i := by omega
        subst hji'
        rw [hg] at hb
        cases hb

/-- A neutral post-load state over a 100 by 100 image shown at scale 1
with no offset; concrete witnesses below override individual fields. -/
def blankState : CanvasState :=
  { selectedTool := Tool.select, annotations := [], isDrawing := false,
    startPoint := none, currentRect := none, selectedAnnot := none,
    scale := 1, imageOffset := ⟨0, 0⟩, imageWidth := 100, imageHeight := 100,
    isEditing := false, editMode := none, resizeHandle := none,
    dragStart := none, originalAnnot := none, editingLabel := none,
    tempLabel := "" }

/-- C6: for any point whose image coordinates lie within
`[0, imageWidth] × [0, imageHeight]`, the image-to-device transform
(`device = offset + imageCoord * scale`) followed by the device-to-image
transform (`clamp((device − offset)/scale, 0, imageDim)`) reproduces the
point; in the exact rational model the "floating tolerance" is zero. -/
theorem C6_viewport_round_trip (st : CanvasState) (p : Point)
    (hscale : 0 < st.scale)
    (hx0 : 0 ≤ p.x) (hxW : p.x ≤ st.imageWidth)
    (hy0 : 0 ≤ p.y) (hyH : p.y ≤ st.imageHeight) :
    getImageMousePos st (imageToDevice st p) = p := by
  have hs : st.scale ≠ 0 := ne_of_gt hscale
  have h1 : (st.imageOffset.x + p.x * st.scale - st.imageOffset.x) / st.scale = p.x := by
    rw [add_sub_cancel_left, mul_div_cancel_right₀ _ hs]
  have h2 : (st.imageOffset.y + p.y * st.scale - st.imageOffset.y) / st.scale = p.y := by
    rw [add_sub_cancel_left, mul_div_cancel_right₀ _ hs]
  simp only [getImageMousePos, imageToDevice, h1, h2,
    min_eq_right hxW, max_eq_right hx0, min_eq_right hyH, max_eq_right hy0]

/-- Witness for C6 at a concrete state: half scale, centering offset. -/
theorem C6_viewport_round_trip_witness :
    getImageMousePos { blankState with scale := 1/2, imageOffset := ⟨20, 35⟩ }
      (imageToDevice { blankState with scale := 1/2, imageOffset := ⟨20, 35⟩ } ⟨40, 30⟩) =
      ⟨40, 30⟩ :=
  C6_viewport_round_trip _ ⟨40, 30⟩ (by norm_num [blankState]) (by norm_num)
    (by norm_num [blankState]) (by norm_num) (by norm_num [blankState])

/-- C4: hit-testing iterates the scene in reverse insertion order and
returns the first annotation whose device-space box contains the point,
or none when no box does; consequently, when an annotation inserted
earlier and one inserted later both cover the point, the result index is
at least the later one's, so the earlier annotation never wins. -/
theorem C4_hit_test_topmost (st : CanvasState) (pos : Point) :
    (∀ (k : Nat), findHitIndex st pos = some k →
       (∃ a, st.annotations[k]? = some a ∧ containsPoint st a pos) ∧
         ∀ (j : Nat) (b : Annot), k < j → st.annotations[j]? = some b →
           ¬ containsPoint st b pos)
    ∧ (findHitIndex st pos = none →
       ∀ (j : Nat) (b : Annot), st.annotations[j]? = some b →
         ¬ containsPoint st b pos)
    ∧ (∀ (i j : Nat) (a b : Annot), i < j → st.annotations[i]? = some a →
       st.annotations[j]? = some b → containsPoint st a pos →
       containsPoint st b pos →
       ∃ k, j ≤ k ∧ findHitIndex st pos = some k) := by
  refine ⟨?_, ?_, ?_⟩
  · intro k h
    obtain ⟨_, he, hall⟩ := findHitAux_eq_some st pos st.annotations _ k h
    refine ⟨he, ?_⟩
    intro j b hkj hb
    have hj : j < st.annotations.length := by
      have hb' := hb
      rw [List.getElem?_eq_some] at hb'
      exact hb'.1
    exact hall j hkj hj b hb
  · intro h j b hb
    have hj : j < st.annotations.length := by
      have hb' := hb
      rw [List.getElem?_eq_some] at hb'
      exact hb'.1
    exact findHitAux_eq_none st pos st.annotations _ h j hj b hb
  · intro i j a b hij ha hb hca hcb
    have hj : j < st.annotations.length := by
      have hb' := hb
      rw [List.getElem?_eq_some] at hb'
      exact hb'.1
    exact findHitAux_covers st pos st.annotations _ j b hj hb hcb

/-- Witness for C4: the spec's Scenario 2 — A at (10,10,50,50) inserted
before B at (30,30,50,50), click at device (40,40), B (index 1) wins. -/
theorem C4_hit_test_topmost_witness :
    ∃ k, 1 ≤ k ∧
      findHitIndex
        { blankState with annotations :=
            [⟨1, 10, 10, 50, 50, "A"⟩, ⟨2, 30, 30, 50, 50, "B"⟩] }
        ⟨40, 40⟩ = some k :=
  (C4_hit_test_topmost
      { blankState with annotations :=
          [⟨1, 10, 10, 50, 50, "A"⟩, ⟨2, 30, 30, 50, 50, "B"⟩] }
      ⟨40, 40⟩).2.2 0 1 ⟨1, 10, 10, 50, 50, "A"⟩ ⟨2, 30, 30, 50, 50, "B"⟩
    (by norm_num) (by rfl) (by rfl)
    (by norm_num [containsPoint, blankState])
    (by norm_num [containsPoint, blankState])

/-- Hotspot membership as the spec words it: a square of side
`handleSize` centered at `(cx, cy)` contains the mouse point. -/
def nearCenter (mouseX mouseY cx cy handleSize : ℚ) : Prop :=
  |mouseX - cx| ≤ handleSize/2 ∧ |mouseY - cy| ≤ handleSize/2

instance (mouseX mouseY cx cy handleSize : ℚ) :
    Decidable (nearCenter mouseX mouseY cx cy handleSize) :=
  inferInstanceAs (Decidable (_ ≤ _ ∧ _ ≤ _))

/-- Spec-worded handle test, for refinement against `getResizeHandle`:
eight hotspots of side 12 centered at the four corners and the four
edge midpoints of the selected annotation's device-space bounds, tested
in the order nw, ne, sw, se, n, s, w, e, first match winning; `none`
when the annotation is not the selected one or no hotspot contains the
point. -/
def specFindHandleAt (st : CanvasState) (mouseX mouseY : ℚ) (a : Annot)
    (index : Nat) : Option Handle :=
  if st.selectedAnnot ≠ some index then none
  else
    let x := st.imageOffset.x + a.x * st.scale
    let y := st.imageOffset.y + a.y * st.scale
    let width := a.width * st.scale
    let height := a.height * st.scale
    let handleSize : ℚ := 12
    if nearCenter mouseX mouseY x y handleSize then some .nw
    else if nearCenter mouseX mouseY (x + width) y handleSize then some .ne
    else if nearCenter mouseX mouseY x (y + height) handleSize then some .sw
    else if nearCenter mouseX mouseY (x + width) (y + height) handleSize then some .se
    else if nearCenter mouseX mouseY (x + width/2) y handleSize then some .n
    else if nearCenter mouseX mouseY (x + width/2) (y + height) handleSize then some .s
    else if nearCenter mouseX mouseY x (y + height/2) handleSize then some .w
    else if nearCenter mouseX mouseY (x + width) (y + height/2) handleSize then some .e
    else none

/-- A hotspot whose top-left corner sits half a side up-left of a center
point is the centered square around that point. -/
theorem inHandleBox_iff_nearCenter (mouseX mouseY c d : ℚ) :
    inHandleBox mouseX mouseY (c - 12/2) (d - 12/2) 12 ↔
      nearCenter mouseX mouseY c d 12 := by
  unfold inHandleBox nearCenter
  rw [abs_le, abs_le]
  constructor
  · rintro ⟨h1, h2, h3, h4⟩
    exact ⟨⟨by linarith, by linarith⟩, ⟨by linarith, by linarith⟩⟩
  · rintro ⟨⟨h1, h2⟩, h3, h4⟩
    exact ⟨by linarith, by linarith, by linarith, by linarith⟩

/-- C7: the resize-handle test returns `none` for any annotation other
than the selected one, and otherwise agrees with the spec-worded test of
eight side-12 squares centered at the corners and edge midpoints, in the
fixed order nw, ne, sw, se, n, s, w, e, first hotspot winning. -/
theorem C7_resize_handle_spec (st : CanvasState) (mouseX mouseY : ℚ)
    (a : Annot) (index : Nat) :
    getResizeHandle st mouseX mouseY a index =
      specFindHandleAt st mouseX mouseY a index
    ∧ (st.selectedAnnot ≠ some index →
       getResizeHandle st mouseX mouseY a index = none) := by
  constructor
  · simp only [getResizeHandle, specFindHandleAt, inHandleBox_iff_nearCenter]
  · intro h
    unfold getResizeHandle
    rw [if_pos h]

/-- Witness for C7: with annotation index 1 selected, the handle test on
annotation index 0 yields no handle even at its own corner. -/
theorem C7_resize_handle_spec_witness :
    getResizeHandle { blankState with selectedAnnot := some 1 } 10 10
      ⟨1, 10, 10, 50, 50, "A"⟩ 0 = none :=
  (C7_resize_handle_spec { blankState with selectedAnnot := some 1 } 10 10
      ⟨1, 10, 10, 50, 50, "A"⟩ 0).2 (by simp [blankState])

/-- C9: a move/resize pointer-move frame rewrites only the selected
index: the list length is preserved and every other index is untouched.
(`hlen` records that reachable editing states select a valid index; the
JS array write would grow the array on an out-of-range index, `List.set`
would not.) -/
theorem C9_frame_touches_only_selected (st : CanvasState) (pos : Point)
    (sel : Nat) (ds : Point) (orig : Annot)
    (hE : st.isEditing = true) (hsel : st.selectedAnnot = some sel)
    (hds : st.dragStart = some ds) (ho : st.originalAnnot = some orig)
    (_hlen : sel < st.annotations.length) :
    (handleMouseMove st pos).1.annotations.length = st.annotations.length
    ∧ ∀ (j : Nat), j ≠ sel →
        (handleMouseMove st pos).1.annotations[j]? = st.annotations[j]? := by
  unfold handleMouseMove
  rw [hE, hsel, hds, ho]
  dsimp only
  refine ⟨List.length_set .., ?_⟩
  intro j hj
  exact List.getElem?_set_ne (fun hh => hj hh.symm)

/-- Editing state used by the C9 witness: one annotation, mid-drag. -/
def dragState : CanvasState :=
  { blankState with
    annotations := [⟨1, 10, 10, 50, 50, "A"⟩],
    isEditing := true, selectedAnnot := some 0,
    editMode := some EditMode.move, dragStart := some ⟨0, 0⟩,
    originalAnnot := some ⟨1, 10, 10, 50, 50, "A"⟩ }

/-- Witness for C9: dragging the single annotation of a one-element
scene preserves the length and every other index. -/
theorem C9_frame_touches_only_selected_witness :
    (handleMouseMove dragState ⟨5, 5⟩).1.annotations.length =
      dragState.annotations.length
    ∧ ∀ (j : Nat), j ≠ 0 →
        (handleMouseMove dragState ⟨5, 5⟩).1.annotations[j]? =
          dragState.annotations[j]? :=
  C9_frame_touches_only_selected dragState ⟨5, 5⟩ 0 ⟨0, 0⟩
    ⟨1, 10, 10, 50, 50, "A"⟩ (by simp [dragState, blankState])
    (by simp [dragState, blankState]) (by simp [dragState, blankState])
    (by simp [dragState, blankState]) (by simp [dragState, blankState])

/-- C10: confirming a label edit whose buffer trims to empty mutates
nothing and fires no notification but still deactivates the editor;
a non-empty trimmed buffer writes exactly the trimmed text into the
edited annotation's label and fires one notification. -/
theorem C10_label_commit (st : CanvasState) (index : Nat)
    (hedit : st.editingLabel = some index) :
    ((step st Event.labelConfirm).1.editingLabel = none
      ∧ (step st Event.labelConfirm).1.tempLabel = "")
    ∧ (jsTrim st.tempLabel = "" →
        (step st Event.labelConfirm).1.annotations = st.annotations
          ∧ (step st Event.labelConfirm).2 = [])
    ∧ (jsTrim st.tempLabel ≠ "" →
        (step st Event.labelConfirm).1.annotations =
            setLabel st.annotations index (jsTrim st.tempLabel)
          ∧ (step st Event.labelConfirm).2 =
              [(step st Event.labelConfirm).1.annotations]
          ∧ ∀ (a : Annot), st.annotations[index]? = some a →
              (step st Event.labelConfirm).1.annotations[index]? =
                some { a with label := jsTrim st.tempLabel }) := by
  unfold step
  rw [hedit]
  dsimp only
  unfold saveLabelEdit updateAnnotLabel
  by_cases htrim : jsTrim st.tempLabel = ""
  · rw [if_neg (fun hne => hne htrim)]
    refine ⟨⟨rfl, rfl⟩, fun _ => ⟨rfl, rfl⟩, fun hne => absurd htrim hne⟩
  · rw [if_pos htrim]
    refine ⟨⟨rfl, rfl⟩, fun heq => absurd heq htrim, fun _ => ⟨rfl, rfl, ?_⟩⟩
    intro a ha
    unfold setLabel
    rw [ha]
    rw [List.getElem?_set_self']
    rw [ha]
    rfl

/-- Label-editing state used by the C10 witness. -/
def labelEditState : CanvasState :=
  { blankState with
    annotations := [⟨1, 10, 10, 50, 50, "A"⟩],
    editingLabel := some 0, tempLabel := "  cat " }

/-- Witness for C10: committing the buffer "  cat " on a one-element
scene writes the label "cat" at index 0. -/
theorem C10_label_commit_witness :
    (step labelEditState Event.labelConfirm).1.annotations[0]? =
      some ⟨1, 10, 10, 50, 50, "cat"⟩ := by
  have h := ((C10_label_commit labelEditState 0
        (by simp [labelEditState, blankState])).2.2
      (by simp only [labelEditState, blankState]; decide)).2.2
    ⟨1, 10, 10, 50, 50, "A"⟩ (by simp [labelEditState, blankState])
  have ht : jsTrim (labelEditState.tempLabel) = "cat" := by
    simp only [labelEditState, blankState]
    decide
  rw [ht] at h
  exact h

/-- C5: every processed event either leaves the annotation list
unchanged while invoking no notification, or its notifications are
exactly one call carrying the full new annotation list.  In particular
no event mutates the Scene Store without notifying (drag frames may
notify without an actual change, which the disjunction's right side
covers). -/
theorem C5_mutation_notifies (st : CanvasState) (e : Event) :
    ((step st e).1.annotations = st.annotations ∧ (step st e).2 = [])
    ∨ (step st e).2 = [(step st e).1.annotations] := by
  cases e with
  | mouseDown pos =>
    left
    refine ⟨?_, rfl⟩
    show (handleMouseDown st pos).annotations = st.annotations
    unfold handleMouseDown
    repeat' split
    all_goals rfl
  | mouseMove pos =>
    show ((handleMouseMove st pos).1.annotations = st.annotations
        ∧ (handleMouseMove st pos).2 = [])
      ∨ (handleMouseMove st pos).2 = [(handleMouseMove st pos).1.annotations]
    unfold handleMouseMove
    repeat' split
    all_goals first
      | (right; rfl)
      | (left; exact ⟨rfl, rfl⟩)
  | mouseUp now =>
    show ((handleMouseUp st now).1.annotations = st.annotations
        ∧ (handleMouseUp st now).2 = [])
      ∨ (handleMouseUp st now).2 = [(handleMouseUp st now).1.annotations]
    unfold handleMouseUp
    repeat' split
    all_goals first
      | (right; rfl)
      | (left; exact ⟨rfl, rfl⟩)
  | keyDelete =>
    simp only [step]
    unfold deleteSelected
    repeat' split
    all_goals first
      | (right; rfl)
      | (left; exact ⟨rfl, rfl⟩)
  | keyEscape => left; exact ⟨rfl, rfl⟩
  | keySpace => left; exact ⟨rfl, rfl⟩
  | deleteClick =>
    simp only [step]
    unfold deleteSelected
    repeat' split
    all_goals first
      | (right; rfl)
      | (left; exact ⟨rfl, rfl⟩)
  | clearClick => right; rfl
  | toolClick t => left; exact ⟨rfl, rfl⟩
  | rowClick i => left; exact ⟨rfl, rfl⟩
  | labelDoubleClick i => left; exact ⟨rfl, rfl⟩
  | labelInput text => left; exact ⟨rfl, rfl⟩
  | labelConfirm =>
    simp only [step]
    unfold saveLabelEdit updateAnnotLabel
    repeat' split
    all_goals first
      | (right; rfl)
      | (left; exact ⟨rfl, rfl⟩)
  | labelCancel => left; exact ⟨rfl, rfl⟩

/-- Spec bounds predicate for a persisted annotation on a `W × H` image:
nonnegative position, right/bottom edge inside the image. -/
def inBoundsAnnot (W H : ℚ) (a : Annot) : Prop :=
  0 ≤ a.x ∧ 0 ≤ a.y ∧ a.x + a.width ≤ W ∧ a.y + a.height ≤ H

instance (W H : ℚ) (a : Annot) : Decidable (inBoundsAnnot W H a) :=
  inferInstanceAs (Decidable (_ ≤ _ ∧ _ ≤ _ ∧ _ ≤ _ ∧ _ ≤ _))

/-- State used by C1's counterexample: one selected annotation at the
image's top-left corner, mid-move, anchor at device (50,50). -/
def moveOutState : CanvasState :=
  { blankState with
    annotations := [⟨1, 0, 0, 50, 50, "Object 1"⟩],
    isEditing := true, selectedAnnot := some 0,
    editMode := some EditMode.move, dragStart := some ⟨50, 50⟩,
    originalAnnot := some ⟨1, 0, 0, 50, 50, "Object 1"⟩ }

/-- C1 fails on the code: moving the box by device delta (−20, 0) and
releasing completes a move gesture that persists x = −20 < 0; move and
resize frames apply no clamping at all. -/
theorem C1_counterexample :
    (handleMouseUp (handleMouseMove moveOutState ⟨30, 50⟩).1 0).1.isEditing = false
    ∧ (handleMouseUp (handleMouseMove moveOutState ⟨30, 50⟩).1 0).1.annotations =
        [⟨1, -20, 0, 50, 50, "Object 1"⟩]
    ∧ ¬ ∀ a ∈ (handleMouseUp (handleMouseMove moveOutState ⟨30, 50⟩).1 0).1.annotations,
        inBoundsAnnot 100 100 a := by
  have hmove : (handleMouseMove moveOutState ⟨30, 50⟩).1 =
      { moveOutState with annotations := [⟨1, -20, 0, 50, 50, "Object 1"⟩] } := by
    norm_num [handleMouseMove, moveOutState, blankState]
  rw [hmove]
  have hup : (handleMouseUp
      { moveOutState with annotations := [⟨1, -20, 0, 50, 50, "Object 1"⟩] } 0).1 =
      { moveOutState with
        annotations := [⟨1, -20, 0, 50, 50, "Object 1"⟩],
        isEditing := false, editMode := none, resizeHandle := none,
        dragStart := none, originalAnnot := none } := by
    norm_num [handleMouseUp, moveOutState, blankState]
  rw [hup]
  refine ⟨rfl, rfl, ?_⟩
  intro hall
  have h := hall ⟨1, -20, 0, 50, 50, "Object 1"⟩ (by simp)
  simp only [inBoundsAnnot] at h
  norm_num at h

/-- C1 amended: a completed draw gesture whose anchor's image-space
equivalent lies inside the image commits only in-bounds annotations
(the moving cursor itself is clamped, so the committed rectangle stays
inside the image); move and resize frames, by contrast, persist
unclamped geometry, as the counterexample shows. -/
theorem C1_amended_draw_commit_in_bounds (st : CanvasState) (pos : Point)
    (now : Int) (sp : Point)
    (hedit : st.isEditing = false) (hdraw : st.isDrawing = true)
    (hsp : st.startPoint = some sp) (htool : st.selectedTool = Tool.bbox)
    (hsx0 : 0 ≤ (sp.x - st.imageOffset.x) / st.scale)
    (hsxW : (sp.x - st.imageOffset.x) / st.scale ≤ st.imageWidth)
    (hsy0 : 0 ≤ (sp.y - st.imageOffset.y) / st.scale)
    (hsyH : (sp.y - st.imageOffset.y) / st.scale ≤ st.imageHeight)
    (hW : 0 ≤ st.imageWidth) (hH : 0 ≤ st.imageHeight) :
    ∀ a ∈ (handleMouseUp (handleMouseMove st pos).1 now).1.annotations,
      a ∈ st.annotations ∨ inBoundsAnnot st.imageWidth st.imageHeight a := by
  have hmove : (handleMouseMove st pos).1 =
      { st with currentRect := some ⟨min (getImageMousePos st pos).x ((sp.x - st.imageOffset.x) / st.scale), min (getImageMousePos st pos).y ((sp.y - st.imageOffset.y) / st.scale), |(getImageMousePos st pos).x - (sp.x - st.imageOffset.x) / st.scale|, |(getImageMousePos st pos).y - (sp.y - st.imageOffset.y) / st.scale|⟩ } := by
    unfold handleMouseMove
    rw [hedit]
    dsimp only
    rw [hdraw, hsp, htool]
  set ix := (getImageMousePos st pos).x with hix
  set iy := (getImageMousePos st pos).y with hiy
  set sx := (sp.x - st.imageOffset.x) / st.scale with hsx
  set sy := (sp.y - st.imageOffset.y) / st.scale with hsy
  have hix0 : 0 ≤ ix := by rw [hix]; unfold getImageMousePos; exact le_max_left ..
  have hiy0 : 0 ≤ iy := by rw [hiy]; unfold getImageMousePos; exact le_max_left ..
  have hixW : ix ≤ st.imageWidth := by
    rw [hix]; unfold getImageMousePos
    exact max_le hW (min_le_left ..)
  have hiyH : iy ≤ st.imageHeight := by
    rw [hiy]; unfold getImageMousePos
    exact max_le hH (min_le_left ..)
  rw [hmove]
  unfold handleMouseUp
  simp only [hedit, hdraw, htool, Bool.false_eq_true, if_false]
  split
  · intro a ha
    rw [List.mem_append] at ha
    rcases ha with ha | ha
    · exact Or.inl ha
    · rw [List.mem_singleton] at ha
      subst ha
      right
      unfold inBoundsAnnot
      refine ⟨le_min hix0 hsx0, le_min hiy0 hsy0, ?_, ?_⟩
      · have habs : min ix sx + |ix - sx| = max ix sx := by
          have hd := max_sub_min_eq_abs ix sx
          rw [abs_sub_comm] at hd
          linarith
        rw [habs]
        exact max_le hixW hsxW
      · have habs : min iy sy + |iy - sy| = max iy sy := by
          have hd := max_sub_min_eq_abs iy sy
          rw [abs_sub_comm] at hd
          linarith
        rw [habs]
        exact max_le hiyH hsyH
  · intro a ha
    exact Or.inl ha

/-- Drawing state used by the C1 witness: anchor at device (10,10). -/
def drawingState : CanvasState :=
  { blankState with
    selectedTool := Tool.bbox, isDrawing := true,
    startPoint := some ⟨10, 10⟩, currentRect := some ⟨10, 10, 0, 0⟩ }

/-- Witness for the amended C1: the annotation committed by a draw from
anchor (10,10) moved to (40,40) is in bounds (it is not one of the
previously stored annotations, so the right disjunct holds). -/
theorem C1_amended_draw_commit_in_bounds_witness :
    (⟨5, 10, 10, 30, 30, "Object 1"⟩ : Annot) ∈ drawingState.annotations
      ∨ inBoundsAnnot drawingState.imageWidth drawingState.imageHeight
          ⟨5, 10, 10, 30, 30, "Object 1"⟩ :=
  C1_amended_draw_commit_in_bounds drawingState ⟨40, 40⟩ 5 ⟨10, 10⟩
    (by simp [drawingState, blankState]) (by simp [drawingState, blankState])
    (by simp [drawingState, blankState]) (by simp [drawingState, blankState])
    (by norm_num [drawingState, blankState]) (by norm_num [drawingState, blankState])
    (by norm_num [drawingState, blankState]) (by norm_num [drawingState, blankState])
    (by norm_num [drawingState, blankState]) (by norm_num [drawingState, blankState])
    ⟨5, 10, 10, 30, 30, "Object 1"⟩
    (by
      have h1 : (handleMouseMove drawingState ⟨40, 40⟩).1 =
          { drawingState with currentRect := some ⟨10, 10, 30, 30⟩ } := by
        norm_num [handleMouseMove, getImageMousePos, drawingState, blankState]
      rw [h1]
      have h2 : (handleMouseUp
          { drawingState with currentRect := some ⟨10, 10, 30, 30⟩ } 5).1 =
          { drawingState with
            isDrawing := false,
            annotations := [⟨5, 10, 10, 30, 30, "Object 1"⟩],
            currentRect := none, startPoint := none } := by
        norm_num [handleMouseUp, drawingState, blankState]
        decide
      rw [h2]
      simp)

/-- Resize state used by C2's counterexample: a 30 by 30 box, east
handle grabbed, anchor at device (100,50), scale 1. -/
def resizeState : CanvasState :=
  { blankState with
    annotations := [⟨1, 0, 0, 30, 30, "Object 1"⟩],
    isEditing := true, selectedAnnot := some 0,
    editMode := some EditMode.resize, resizeHandle := some Handle.e,
    dragStart := some ⟨100, 50⟩,
    originalAnnot := some ⟨1, 0, 0, 30, 30, "Object 1"⟩ }

/-- C2 fails on the code: frame 1 (drag to device x=120) is accepted and
widens the box to 50; frame 2 (drag to device x=75) would make the width
5 ≤ 10, so it is discarded — but the annotation then reads 30, the width
of the drag-start snapshot, not 50, the width it had before that frame. -/
theorem C2_counterexample :
    (handleMouseMove resizeState ⟨120, 50⟩).1.annotations.map (fun a => a.width)
      = [50]
    ∧ (handleMouseMove (handleMouseMove resizeState ⟨120, 50⟩).1
        ⟨75, 50⟩).1.annotations.map (fun a => a.width) = [30]
    ∧ (resizeGeom Handle.e ⟨1, 0, 0, 30, 30, "Object 1"⟩ ((75 - 100 : ℚ) / 1) 0).width ≤ 10
    ∧ (50 : ℚ) ≠ 30 := by
  have h1 : (handleMouseMove resizeState ⟨120, 50⟩).1 =
      { resizeState with annotations := [⟨1, 0, 0, 50, 30, "Object 1"⟩] } := by
    norm_num [handleMouseMove, resizeGeom, resizeState, blankState]
    decide
  rw [h1]
  have h2 : (handleMouseMove
      { resizeState with annotations := [⟨1, 0, 0, 50, 30, "Object 1"⟩] }
      ⟨75, 50⟩).1 =
      { resizeState with annotations := [⟨1, 0, 0, 30, 30, "Object 1"⟩] } := by
    norm_num [handleMouseMove, resizeGeom, resizeState, blankState]
    decide
  rw [h2]
  refine ⟨by norm_num [resizeState, blankState], by norm_num [resizeState, blankState], ?_, by norm_num⟩
  norm_num [resizeGeom]

/-- C2 amended: a resize frame recomputes geometry from the drag-start
snapshot `originalAnnot` and the per-frame delta; when the resulting
width or height does not exceed minSize = 10, the frame writes the
snapshot geometry itself back into the selected slot (not the geometry
of the previous accepted frame), and it notifies either way. -/
theorem C2_amended_resize_frame (st : CanvasState) (pos : Point)
    (sel : Nat) (ds : Point) (orig : Annot) (h : Handle)
    (hE : st.isEditing = true) (hsel : st.selectedAnnot = some sel)
    (hds : st.dragStart = some ds) (ho : st.originalAnnot = some orig)
    (hmode : st.editMode = some EditMode.resize)
    (hh : st.resizeHandle = some h) :
    ((handleMouseMove st pos).1.annotations =
      st.annotations.set sel
        (if (resizeGeom h orig ((pos.x - ds.x) / st.scale) ((pos.y - ds.y) / st.scale)).width > 10
            ∧ (resizeGeom h orig ((pos.x - ds.x) / st.scale) ((pos.y - ds.y) / st.scale)).height > 10
         then { orig with
                x := (resizeGeom h orig ((pos.x - ds.x) / st.scale) ((pos.y - ds.y) / st.scale)).x,
                y := (resizeGeom h orig ((pos.x - ds.x) / st.scale) ((pos.y - ds.y) / st.scale)).y,
                width := (resizeGeom h orig ((pos.x - ds.x) / st.scale) ((pos.y - ds.y) / st.scale)).width,
                height := (resizeGeom h orig ((pos.x - ds.x) / st.scale) ((pos.y - ds.y) / st.scale)).height }
         else orig))
    ∧ (handleMouseMove st pos).2 = [(handleMouseMove st pos).1.annotations] := by
  unfold handleMouseMove
  rw [hE, hsel, hds, ho]
  dsimp only
  simp only [hmode, hh]
  refine ⟨?_, ?_⟩ <;> first
    | rfl
    | trivial

/-- Witness for the amended C2: the first counterexample frame notifies
with the written list. -/
theorem C2_amended_resize_frame_witness :
    (handleMouseMove resizeState ⟨120, 50⟩).2 =
      [(handleMouseMove resizeState ⟨120, 50⟩).1.annotations] :=
  (C2_amended_resize_frame resizeState ⟨120, 50⟩ 0 ⟨100, 50⟩
    ⟨1, 0, 0, 30, 30, "Object 1"⟩ Handle.e
    (by simp [resizeState, blankState]) (by simp [resizeState, blankState])
    (by simp [resizeState, blankState]) (by simp [resizeState, blankState])
    (by simp [resizeState, blankState]) (by simp [resizeState, blankState])).2

/-- Drawing state used by C3's counterexample: an in-progress 50 by 50
rectangle about to be committed (selection was cleared at gesture
start, as `handleMouseDown`'s bbox branch always does). -/
def drawnState : CanvasState :=
  { blankState with
    selectedTool := Tool.bbox, isDrawing := true,
    startPoint := some ⟨0, 0⟩, currentRect := some ⟨0, 0, 50, 50⟩ }

/-- C3 fails on the code: the commit inserts the annotation but does not
select it — `selectedAnnotation` stays `null`, whereas the claim says
the new annotation (index 0) becomes the current selection. -/
theorem C3_counterexample :
    (handleMouseUp drawnState 777).1.annotations.length = 1
    ∧ (handleMouseUp drawnState 777).1.selectedAnnot = none
    ∧ (none : Option Nat) ≠ some 0 := by
  have h : (handleMouseUp drawnState 777).1 =
      { drawnState with
        isDrawing := false,
        annotations := [⟨777, 0, 0, 50, 50, "Object 1"⟩],
        currentRect := none, startPoint := none } := by
    norm_num [handleMouseUp, drawnState, blankState]
    decide
  rw [h]
  refine ⟨rfl, rfl, by simp⟩

/-- C3 amended: on pointer-up while drawing, a rectangle with width and
height above minSize = 10 appends exactly one annotation (id = the
clock value `Date.now()` returned, label "Object N" with N the new
length) and notifies once; otherwise nothing is inserted and nothing is
notified; in both cases the machine returns to idle — and in both cases
the selection is left exactly as it was (cleared at gesture start), not
moved to the new annotation. -/
theorem C3_amended_draw_commit (st : CanvasState) (now : Int) (r : Rect)
    (hedit : st.isEditing = false) (hdraw : st.isDrawing = true)
    (hrect : st.currentRect = some r) (htool : st.selectedTool = Tool.bbox) :
    (r.width > 10 ∧ r.height > 10 →
      (handleMouseUp st now).1.annotations =
        st.annotations ++ [⟨now, r.x, r.y, r.width, r.height,
          "Object " ++ toString (st.annotations.length + 1)⟩]
      ∧ (handleMouseUp st now).2 = [(handleMouseUp st now).1.annotations])
    ∧ (¬ (r.width > 10 ∧ r.height > 10) →
      (handleMouseUp st now).1.annotations = st.annotations
      ∧ (handleMouseUp st now).2 = [])
    ∧ (handleMouseUp st now).1.selectedAnnot = st.selectedAnnot
    ∧ (handleMouseUp st now).1.isDrawing = false
    ∧ (handleMouseUp st now).1.currentRect = none
    ∧ (handleMouseUp st now).1.startPoint = none := by
  unfold handleMouseUp
  simp only [hedit, hdraw, hrect, htool, Bool.false_eq_true, if_false]
  by_cases hsize : r.width > 10 ∧ r.height > 10
  · rw [if_pos hsize]
    exact ⟨fun _ => ⟨rfl, rfl⟩, fun hc => absurd hsize hc, rfl, rfl, rfl, rfl⟩
  · rw [if_neg hsize]
    exact ⟨fun hc => absurd hc hsize, fun _ => ⟨rfl, rfl⟩, rfl, rfl, rfl, rfl⟩

/-- Small-rectangle state for the C3 witness: the spec's Scenario 4,
a 5 by 5 in-progress rectangle. -/
def smallRectState : CanvasState :=
  { blankState with
    selectedTool := Tool.bbox, isDrawing := true,
    startPoint := some ⟨0, 0⟩, currentRect := some ⟨0, 0, 5, 5⟩ }

/-- Witness for the amended C3: releasing over a 5 by 5 rectangle
(below minSize) inserts nothing and fires no notification. -/
theorem C3_amended_draw_commit_witness :
    (handleMouseUp smallRectState 5).1.annotations = smallRectState.annotations
      ∧ (handleMouseUp smallRectState 5).2 = [] :=
  (C3_amended_draw_commit smallRectState 5 ⟨0, 0, 5, 5⟩
    (by simp [smallRectState, blankState]) (by simp [smallRectState, blankState])
    (by simp [smallRectState, blankState]) (by simp [smallRectState, blankState])).2.1
    (by norm_num)

/-- The ids currently in the scene, in insertion order. -/
def sceneIds (st : CanvasState) : List Int :=
  st.annotations.map (fun a => a.id)

/-- Event trace for C8's counterexample: toggle to the bbox tool, then
two complete draw gestures whose `Date.now()` readings coincide
(two commits within the same millisecond). -/
def sameClockEvents : List Event :=
  [Event.keySpace, Event.mouseDown ⟨10, 10⟩, Event.mouseMove ⟨40, 40⟩,
   Event.mouseUp 1000, Event.mouseDown ⟨10, 10⟩, Event.mouseMove ⟨50, 50⟩,
   Event.mouseUp 1000]

/-- Intermediate states of the C8 counterexample trace. -/
def c8s1 : CanvasState := { blankState with selectedTool := Tool.bbox }

/-- After the first bbox pointer-down at device (10,10). -/
def c8s2 : CanvasState :=
  { c8s1 with
    isDrawing := true, startPoint := some ⟨10, 10⟩,
    currentRect := some ⟨10, 10, 0, 0⟩, selectedAnnot := none }

/-- After the first drag to device (40,40). -/
def c8s3 : CanvasState := { c8s2 with currentRect := some ⟨10, 10, 30, 30⟩ }

/-- After the first commit at clock 1000. -/
def c8s4 : CanvasState :=
  { c8s3 with
    isDrawing := false,
    annotations := [⟨1000, 10, 10, 30, 30, "Object 1"⟩],
    currentRect := none, startPoint := none }

/-- After the second bbox pointer-down at device (10,10). -/
def c8s5 : CanvasState :=
  { c8s4 with
    isDrawing := true, startPoint := some ⟨10, 10⟩,
    currentRect := some ⟨10, 10, 0, 0⟩, selectedAnnot := none }

/-- After the second drag to device (50,50). -/
def c8s6 : CanvasState := { c8s5 with currentRect := some ⟨10, 10, 40, 40⟩ }

/-- After the second commit, also at clock 1000. -/
def c8s7 : CanvasState :=
  { c8s6 with
    isDrawing := false,
    annotations := [⟨1000, 10, 10, 30, 30, "Object 1"⟩,
      ⟨1000, 10, 10, 40, 40, "Object 2"⟩],
    currentRect := none, startPoint := none }

/-- C8 fails on the code: ids come from `Date.now()`, so two draw
commits in the same millisecond produce the duplicate ids
`[1000, 1000]` — neither pairwise distinct nor strictly increasing. -/
theorem C8_counterexample :
    sceneIds (runSteps blankState sameClockEvents) = [1000, 1000]
    ∧ ¬ (sceneIds (runSteps blankState sameClockEvents)).Nodup
    ∧ ¬ ((1000 : Int) < 1000) := by
  have h1 : (step blankState Event.keySpace).1 = c8s1 := by
    norm_num [step, blankState, c8s1]
  have h2 : (step c8s1 (Event.mouseDown ⟨10, 10⟩)).1 = c8s2 := by
    norm_num [step, handleMouseDown, blankState, c8s1, c8s2]
    intro hcon
    exact absurd hcon (by decide)
  have h3 : (step c8s2 (Event.mouseMove ⟨40, 40⟩)).1 = c8s3 := by
    norm_num [step, handleMouseMove, getImageMousePos, blankState, c8s1,
      c8s2, c8s3]
  have h4 : (step c8s3 (Event.mouseUp 1000)).1 = c8s4 := by
    norm_num [step, handleMouseUp, blankState, c8s1, c8s2, c8s3, c8s4]
    decide
  have h5 : (step c8s4 (Event.mouseDown ⟨10, 10⟩)).1 = c8s5 := by
    norm_num [step, handleMouseDown, blankState, c8s1, c8s2, c8s3, c8s4, c8s5]
    intro hcon
    exact absurd hcon (by decide)
  have h6 : (step c8s5 (Event.mouseMove ⟨50, 50⟩)).1 = c8s6 := by
    norm_num [step, handleMouseMove, getImageMousePos, blankState, c8s1,
      c8s2, c8s3, c8s4, c8s5, c8s6]
  have h7 : (step c8s6 (Event.mouseUp 1000)).1 = c8s7 := by
    norm_num [step, handleMouseUp, blankState, c8s1, c8s2, c8s3, c8s4, c8s5,
      c8s6, c8s7]
    decide
  have hrun : runSteps blankState sameClockEvents = c8s7 := by
    simp only [sameClockEvents, runSteps]
    rw [h1, h2, h3, h4, h5, h6, h7]
  rw [hrun]
  have hids : sceneIds c8s7 = [1000, 1000] := by
    simp [sceneIds, c8s7, c8s6, c8s5, c8s4, c8s3, c8s2, c8s1, blankState]
  exact ⟨hids, by rw [hids]; decide, by decide⟩

/-- Writing an annotation whose id matches the one already stored at an
index leaves the scene's id list unchanged. -/
theorem sceneIds_set_of_id_eq (l : List Annot) (i : Nat) (a b : Annot)
    (ha : l[i]? = some a) (hid : b.id = a.id) :
    (l.set i b).map (fun x => x.id) = l.map (fun x => x.id) := by
  rw [List.map_set]
  have hm : (l.map (fun x => x.id))[i]? = some a.id := by
    rw [List.getElem?_map, ha]
    rfl
  rw [hid]
  exact set_self_of_getElem? _ i a.id hm

/-- Pointer-down never changes the annotation list. -/
theorem handleMouseDown_annotations (st : CanvasState) (pos : Point) :
    (handleMouseDown st pos).annotations = st.annotations := by
  unfold handleMouseDown
  repeat' split
  all_goals rfl

/-- A pointer-move frame never changes the scene's id list: an edit
frame rewrites the selected index with geometry derived from the
drag-start snapshot, whose id (by the stated snapshot consistency)
equals the one already stored there. -/
theorem handleMouseMove_sceneIds (st : CanvasState) (pos : Point)
    (hsnap : ∀ (sel : Nat) (o : Annot), st.selectedAnnot = some sel →
      st.originalAnnot = some o →
      (st.annotations[sel]?).map (fun a => a.id) = some o.id) :
    sceneIds (handleMouseMove st pos).1 = sceneIds st := by
  unfold handleMouseMove
  split
  next sel ds orig heqE heqSel heqDS heqO =>
    have hsnap' := hsnap sel orig heqSel heqO
    cases hel : st.annotations[sel]? with
    | none =>
      rw [hel] at hsnap'
      cases hsnap'
    | some a =>
      rw [hel] at hsnap'
      have haid : a.id = orig.id := by simpa using hsnap'
      simp only [sceneIds]
      refine sceneIds_set_of_id_eq st.annotations sel a _ hel ?_
      rw [haid]
      repeat' split
      all_goals rfl
  next h =>
    split
    · rfl
    · rfl

/-- A label write never changes the scene's id list. -/
theorem setLabel_map_id (l : List Annot) (i : Nat) (s : String) :
    (setLabel l i s).map (fun x => x.id) = l.map (fun x => x.id) := by
  unfold setLabel
  cases hel : l[i]? with
  | none => rfl
  | some a =>
    dsimp only
    exact sceneIds_set_of_id_eq l i a _ hel rfl

/-- C8 amended: a draw commit's id is the `Date.now()` reading, so the
scene's ids stay pairwise distinct across any single event provided a
commit's clock value is not already an id in the scene (the snapshot
consistency hypothesis holds in every reachable editing state); two
commits inside one millisecond violate the freshness side condition and
duplicate an id, as the counterexample shows. -/
theorem C8_amended_id_uniqueness (st : CanvasState) (e : Event)
    (hnodup : (sceneIds st).Nodup)
    (hfresh : ∀ (now : Int), e = Event.mouseUp now → ¬ now ∈ sceneIds st)
    (hsnap : ∀ (sel : Nat) (o : Annot), st.selectedAnnot = some sel →
      st.originalAnnot = some o →
      (st.annotations[sel]?).map (fun a => a.id) = some o.id) :
    (sceneIds (step st e).1).Nodup := by
  cases e with
  | mouseDown pos =>
    show (sceneIds (handleMouseDown st pos)).Nodup
    unfold sceneIds
    rw [handleMouseDown_annotations]
    exact hnodup
  | mouseMove pos =>
    show (sceneIds (handleMouseMove st pos).1).Nodup
    rw [handleMouseMove_sceneIds st pos hsnap]
    exact hnodup
  | mouseUp now =>
    have hf : ¬ now ∈ sceneIds st := hfresh now rfl
    show (sceneIds (handleMouseUp st now).1).Nodup
    unfold handleMouseUp
    split
    · exact hnodup
    · split
      next r heq1 heq2 heq3 =>
        split
        · simp only [sceneIds, List.map_append, List.nodup_append]
          refine ⟨hnodup, by simp, ?_⟩
          simp only [List.map_cons, List.map_nil, List.disjoint_singleton]
          simpa [sceneIds] using hf
        · exact hnodup
      next => exact hnodup
  | keyDelete =>
    show (sceneIds (if st.selectedAnnot ≠ none then deleteSelected st
      else (st, [])).1).Nodup
    split
    · unfold deleteSelected
      split
      next => exact hnodup
      next sel heq =>
        simp only [sceneIds]
        have hsub : (removeAt st.annotations sel).Sublist st.annotations := by
          rw [removeAt_eq_eraseIdx]
          exact List.eraseIdx_sublist ..
        exact List.Nodup.sublist (List.Sublist.map _ hsub) hnodup
    · exact hnodup
  | keyEscape => exact hnodup
  | keySpace => exact hnodup
  | deleteClick =>
    show (sceneIds (deleteSelected st).1).Nodup
    unfold deleteSelected
    split
    next => exact hnodup
    next sel heq =>
      simp only [sceneIds]
      have hsub : (removeAt st.annotations sel).Sublist st.annotations := by
        rw [removeAt_eq_eraseIdx]
        exact List.eraseIdx_sublist ..
      exact List.Nodup.sublist (List.Sublist.map _ hsub) hnodup
  | clearClick =>
    show (sceneIds (clearAll st).1).Nodup
    simp [sceneIds, clearAll]
  | toolClick t => exact hnodup
  | rowClick i => exact hnodup
  | labelDoubleClick i =>
    show (sceneIds (startLabelEdit st i)).Nodup
    unfold startLabelEdit sceneIds
    exact hnodup
  | labelInput text => exact hnodup
  | labelConfirm =>
    show (sceneIds (match st.editingLabel with
      | some index => saveLabelEdit st index
      | none => (st, [])).1).Nodup
    split
    next index heq =>
      unfold saveLabelEdit updateAnnotLabel
      split
      · simp only [sceneIds]
        rw [setLabel_map_id]
        exact hnodup
      · exact hnodup
    next => exact hnodup
  | labelCancel => exact hnodup

/-- One-annotation state for the C8 witness. -/
def oneAnnState : CanvasState :=
  { blankState with
    annotations := [⟨1, 10, 10, 50, 50, "Object 1"⟩] }

/-- Witness for the amended C8: a commit event carrying a fresh clock
value keeps the ids pairwise distinct. -/
theorem C8_amended_id_uniqueness_witness :
    (sceneIds (step oneAnnState (Event.mouseUp 2)).1).Nodup :=
  C8_amended_id_uniqueness oneAnnState (Event.mouseUp 2)
    (by simp [sceneIds, oneAnnState, blankState])
    (by
      intro now h
      cases h
      simp [sceneIds, oneAnnState, blankState])
    (by
      intro sel o hsel ho
      simp [oneAnnState, blankState] at hsel)
